import Mathlib

/-!
Verification of the temperature-calibration system: a shallow embedding of the
calibration engine, the furnace Modbus client, the multimeter text client and
the statistics/uncertainty code, with theorems checking the specification's
claims against the embedded code.

Temperatures and measured values are modelled as rationals (`ℚ`); the standard
deviation, which the code obtains via a square root, is modelled in `ℝ`.
-/

namespace TempCal

/-! ## Configuration constants (from `config.py`) -/

def REFERENCE_CHANNEL : String := "A0"

def MEASUREMENTS_PER_POINT : ℕ := 10

def PARKING_TEMPERATURE : ℚ := 30

def FURNACE_SLAVE_ID : ℕ := 0x01

def MODBUS_READ_HOLDING : ℕ := 0x03

def MODBUS_WRITE_MULTIPLE : ℕ := 0x10

/-- `PT100_CLASS_AA_TOLERANCE = lambda t: 0.1 + 0.0017 * abs(t)` -/
def PT100_CLASS_AA_TOLERANCE (t : ℚ) : ℚ := 1/10 + 17/10000 * |t|

/-- `PT100_CLASS_A_TOLERANCE = lambda t: 0.15 + 0.002 * abs(t)` -/
def PT100_CLASS_A_TOLERANCE (t : ℚ) : ℚ := 15/100 + 2/1000 * |t|

/-- `PT100_CLASS_B_TOLERANCE = lambda t: 0.3 + 0.005 * abs(t)` -/
def PT100_CLASS_B_TOLERANCE (t : ℚ) : ℚ := 3/10 + 5/1000 * |t|

/-- `PT100_CLASS_C_TOLERANCE = lambda t: 0.6 + 0.01 * abs(t)` -/
def PT100_CLASS_C_TOLERANCE (t : ℚ) : ℚ := 6/10 + 1/100 * |t|

/-- `TC_K_CLASS_1_TOLERANCE = lambda t: max(1.5, 0.004 * abs(t))` -/
def TC_K_CLASS_1_TOLERANCE (t : ℚ) : ℚ := max (3/2) (4/1000 * |t|)

/-- `TC_K_CLASS_2_TOLERANCE = lambda t: max(2.5, 0.0075 * abs(t))` -/
def TC_K_CLASS_2_TOLERANCE (t : ℚ) : ℚ := max (5/2) (75/10000 * |t|)

/-- `TC_S_CLASS_1_TOLERANCE = lambda t: max(1.0, 0.003*(t-1100)) if t > 1100 else 1.0` -/
def TC_S_CLASS_1_TOLERANCE (t : ℚ) : ℚ :=
  if t > 1100 then max 1 (3/1000 * (t - 1100)) else 1

/-! ## Statistics (`calibration/statistics.py`, class `StatisticsCalculator`) -/

/-- `calculate_mean`: 0 on an empty list, otherwise `np.mean` = sum / length. -/
def calculate_mean (xs : List ℚ) : ℚ :=
  if xs = [] then 0 else xs.sum / xs.length

/-- Sum of squared deviations from the mean, as computed inside
`np.std(values, ddof=1)`. -/
def sumSqDev (xs : List ℚ) : ℚ :=
  (xs.map (fun x => (x - calculate_mean xs) ^ 2)).sum

/-- The radicand of `np.std(values, ddof=1)`: mean of squared deviations with
divisor `n - ddof = n - 1`. -/
def stdRadicand (xs : List ℚ) : ℚ :=
  sumSqDev xs / ((xs.length : ℚ) - 1)

/-- `calculate_std`: `0.0` when `len(values) < 2`, otherwise
`float(np.std(values, ddof=1))`, i.e. the square root of the `ddof = 1`
mean squared deviation. -/
noncomputable def calculate_std (xs : List ℚ) : ℝ :=
  if xs.length < 2 then 0 else Real.sqrt (stdRadicand xs)

/-- Spec-side definition: the Bessel-corrected (n−1) sample variance, written
in the textbook closed form `(n·Σx² − (Σx)²) / (n·(n−1))`. -/
def besselSampleVariance (xs : List ℚ) : ℚ :=
  ((xs.length : ℚ) * (xs.map (fun x => x ^ 2)).sum - xs.sum ^ 2) /
    ((xs.length : ℚ) * ((xs.length : ℚ) - 1))

lemma sum_sq_sub_const (m : ℚ) (xs : List ℚ) :
    (xs.map (fun x => (x - m) ^ 2)).sum =
      (xs.map (fun x => x ^ 2)).sum - 2 * m * xs.sum + (xs.length : ℚ) * m ^ 2 := by
  induction xs with
  | nil => simp
  | cons a l ih =>
    simp only [List.map_cons, List.sum_cons, List.length_cons, ih]
    push_cast
    ring

lemma stdRadicand_eq_besselSampleVariance (xs : List ℚ) (h : 2 ≤ xs.length) :
    stdRadicand xs = besselSampleVariance xs := by
  have hne : xs ≠ [] := by
    intro hcon
    simp [hcon] at h
  have hn : (0 : ℚ) < (xs.length : ℚ) := by
    have : 0 < xs.length := by omega
    exact_mod_cast this
  have hn1 : ((xs.length : ℚ) - 1) ≠ 0 := by
    have : (2 : ℚ) ≤ (xs.length : ℚ) := by exact_mod_cast h
    linarith
  unfold stdRadicand besselSampleVariance sumSqDev
  rw [sum_sq_sub_const]
  have hmean : calculate_mean xs = xs.sum / xs.length := by
    simp [calculate_mean, hne]
  rw [hmean]
  field_simp
  ring

/-! ## Furnace Modbus client (`devices/furnace.py`, class `PegasusFurnace`)

Bytes are naturals `< 256`; frames are byte lists. -/

/-- One shift/xor round of `_calculate_crc`'s inner loop:
`crc = (crc >> 1) ^ 0xA001 if crc & 0x0001 else crc >> 1`. -/
def crcRound (c : ℕ) : ℕ :=
  if c % 2 = 1 then (c / 2) ^^^ 0xA001 else c / 2

/-- Processing one byte in `_calculate_crc`: `crc ^= byte` followed by eight
shift/xor rounds. -/
def crcByteStep (c b : ℕ) : ℕ :=
  crcRound^[8] (c ^^^ b)

/-- `PegasusFurnace._calculate_crc`: CRC-16/Modbus, polynomial `0xA001`,
seed `0xFFFF`, byte at a time. -/
def calculate_crc (data : List ℕ) : ℕ :=
  data.foldl crcByteStep 0xFFFF

/-- `struct.unpack('<H', response[7:9])`: little-endian 16-bit trailer. -/
def crc_le (lo hi : ℕ) : ℕ := lo + 256 * hi

/-- `struct.unpack('>f', ...)`'s input word assembled from four big-endian
bytes. -/
def word_be (b0 b1 b2 b3 : ℕ) : ℕ :=
  ((b0 * 256 + b1) * 256 + b2) * 256 + b3

/-- Value of an IEEE-754 single-precision float, as decoded by
`struct.unpack('>f', ...)`. -/
inductive F32 where
  | finite (q : ℚ)
  | posInf
  | negInf
  | nan
deriving DecidableEq

/-- Decode a 32-bit word as an IEEE-754 single-precision float
(sign / 8-bit exponent / 23-bit mantissa; subnormals and specials included). -/
def decode_float32 (w : ℕ) : F32 :=
  let s : ℕ := w / 2 ^ 31
  let e : ℕ := (w / 2 ^ 23) % 2 ^ 8
  let m : ℕ := w % 2 ^ 23
  let sgn : ℚ := if s = 1 then -1 else 1
  if e = 255 then
    if m = 0 then (if s = 1 then .negInf else .posInf) else .nan
  else if e = 0 then
    .finite (sgn * (m : ℚ) / 2 ^ 23 * (2 : ℚ) ^ (-126 : ℤ))
  else
    .finite (sgn * (1 + (m : ℚ) / 2 ^ 23) * (2 : ℚ) ^ ((e : ℤ) - 127))

/-- `PegasusFurnace._parse_float_response`: validates length (`< 9` rejected),
slave id, the exception function code `0x03 | 0x80`, byte count `= 4`, and the
CRC of bytes `[0:7]` against the little-endian trailer `[7:9]`, then decodes
bytes `[3:7]` as a big-endian IEEE-754 float. -/
def parse_float_response (r : List ℕ) : Option F32 :=
  if r.length < 9 then none
  else if r.getD 0 0 ≠ FURNACE_SLAVE_ID then none
  else if r.getD 1 0 = (MODBUS_READ_HOLDING ||| 0x80) then none
  else if r.getD 2 0 ≠ 4 then none
  else if crc_le (r.getD 7 0) (r.getD 8 0) ≠ calculate_crc (r.take 7) then none
  else some (decode_float32 (word_be (r.getD 3 0) (r.getD 4 0) (r.getD 5 0) (r.getD 6 0)))

/-- `PegasusFurnace.read_temperature` / `read_setpoint`, given the 9-byte reply
read off the wire: `(True, value)` when `_parse_float_response` succeeds,
`(False, 0.0)` otherwise. -/
def furnace_read_value (reply : List ℕ) : Bool × F32 :=
  match parse_float_response reply with
  | some v => (true, v)
  | none => (false, .finite 0)

/-! ## Multimeter text client (`devices/cropico.py`, class `CropicoDevice`)

Responses are character lists; `read_temperature` extracts the first
`[+-]?\d+\.?\d*` token (leftmost match, greedy), checks plausibility, and
otherwise looks for the overflow marker. -/

/-- Try to match `[+-]?\d+\.?\d*` starting at the head of the list
(greedy, as `re` matches when nothing follows the group). -/
def matchNumAt (l : List Char) : Option (List Char) :=
  let sign : List Char × List Char :=
    match l with
    | c :: cs => if c = '+' ∨ c = '-' then ([c], cs) else ([], l)
    | [] => ([], [])
  match sign.2 with
  | c :: _ =>
    if c.isDigit then
      let ds := sign.2.takeWhile Char.isDigit
      let r2 := sign.2.dropWhile Char.isDigit
      match r2 with
      | '.' :: r3 => some (sign.1 ++ ds ++ '.' :: r3.takeWhile Char.isDigit)
      | _ => some (sign.1 ++ ds)
    else none
  | [] => none

/-- `re.search(r'([+-]?\d+\.?\d*)', response)`: leftmost match. -/
def searchNum : List Char → Option (List Char)
  | [] => none
  | c :: cs =>
    match matchNumAt (c :: cs) with
    | some t => some t
    | none => searchNum cs

/-- Decimal digits to a natural number. -/
def digitsToNat (ds : List Char) : ℕ :=
  ds.foldl (fun acc c => 10 * acc + (c.toNat - 48)) 0

/-- `float(token)` for a token matched by `[+-]?\d+\.?\d*` (exact decimal). -/
def tokenToRat (t : List Char) : ℚ :=
  let sgnrest : ℚ × List Char :=
    match t with
    | '-' :: cs => (-1, cs)
    | '+' :: cs => (1, cs)
    | _ => (1, t)
  let intDigits := sgnrest.2.takeWhile Char.isDigit
  let rest2 := sgnrest.2.dropWhile Char.isDigit
  let fracDigits : List Char :=
    match rest2 with
    | '.' :: cs => cs.takeWhile Char.isDigit
    | _ => []
  sgnrest.1 * ((digitsToNat intDigits : ℚ) +
    (digitsToNat fracDigits : ℚ) / 10 ^ fracDigits.length)

/-- Contiguous-substring test, `pat in l` of Python. -/
def containsSeq (pat : List Char) : List Char → Bool
  | [] => pat.isEmpty
  | c :: cs => pat.isPrefixOf (c :: cs) || containsSeq pat cs

/-- `"OVF" in response.upper() or "OVERFLOW" in response.upper()`. -/
def hasOverflowMarker (l : List Char) : Bool :=
  containsSeq "OVF".toList (l.map Char.toUpper) ||
    containsSeq "OVERFLOW".toList (l.map Char.toUpper)

/-- Result value of `CropicoDevice.read_temperature`: a number, or the
`float('inf')` sentinel. -/
inductive MeterVal where
  | num (q : ℚ)
  | posInf
deriving DecidableEq

/-- `CropicoDevice.read_temperature`, given the raw response string: a numeric
token in range [−200, 2000] yields `(True, temp)`; a numeric token out of
range yields `(False, 0.0)`; no numeric token but an overflow marker yields
`(False, float('inf'))`; anything else `(False, 0.0)`. -/
def cropico_read_temperature (response : List Char) : Bool × MeterVal :=
  if response.isEmpty then (false, .num 0)
  else
    match searchNum response with
    | some t =>
      let temp := tokenToRat t
      if -200 ≤ temp ∧ temp ≤ 2000 then (true, .num temp) else (false, .num 0)
    | none =>
      if hasOverflowMarker response then (false, .posInf) else (false, .num 0)

/-! ## Sensor classification (`calibration/uncertainty.py` and `config.py`) -/

/-- `"TC_"`-prefix test used by `create_uncertainty_calculator`. -/
def hasTCMarker (s : String) : Bool :=
  "TC_".toList.isPrefixOf s.toList

/-- `sensor_type.split("_")[1]`: the segment after the first underscore. -/
def tcTypeOf (s : String) : String :=
  ⟨((s.toList.dropWhile (fun c => c ≠ '_')).drop 1).takeWhile (fun c => c ≠ '_')⟩

/-- `tc_type.upper()` (ASCII, as the sensor-type strings are). -/
def upperStr (s : String) : String := ⟨s.toList.map Char.toUpper⟩

/-- `PT100UncertaintyCalculator.classify_sensor`: evaluate the additive
tolerance formulas from tightest (AA) to loosest (C); first satisfied class
wins, else "Poza klasą" (out of class). -/
def classifyPT100 (max_error t : ℚ) : String :=
  let e := |max_error|
  if e ≤ PT100_CLASS_AA_TOLERANCE t then "AA"
  else if e ≤ PT100_CLASS_A_TOLERANCE t then "A"
  else if e ≤ PT100_CLASS_B_TOLERANCE t then "B"
  else if e ≤ PT100_CLASS_C_TOLERANCE t then "C"
  else "Poza klasą"

/-- `ThermocoupleUncertaintyCalculator.classify_sensor` for an (uppercased)
thermocouple type. -/
def classifyTC (tcType : String) (max_error t : ℚ) : String :=
  let e := |max_error|
  if tcType = "K" then
    if e ≤ TC_K_CLASS_1_TOLERANCE t then "Klasa 1"
    else if e ≤ TC_K_CLASS_2_TOLERANCE t then "Klasa 2"
    else "Poza klasą"
  else if tcType = "S" then
    if e ≤ TC_S_CLASS_1_TOLERANCE t then "Klasa 1"
    else if e ≤ TC_S_CLASS_1_TOLERANCE t * (3/2) then "Klasa 2"
    else "Poza klasą"
  else
    if e ≤ max (3/2) (4/1000 * |t|) then "Klasa 1"
    else if e ≤ max (5/2) (75/10000 * |t|) then "Klasa 2"
    else "Poza klasą"

/-- `create_uncertainty_calculator(sensor_type).classify_sensor(...)`:
`"PT100"` and unknown types classify with the PT100 tables; `"TC_*"` types
with the thermocouple tables for `split("_")[1].upper()`. -/
def classify_sensor (sensorType : String) (max_error t : ℚ) : String :=
  if sensorType = "PT100" then classifyPT100 max_error t
  else if hasTCMarker sensorType then classifyTC (upperStr (tcTypeOf sensorType)) max_error t
  else classifyPT100 max_error t

/-- Spec-side strictness rank of a class label: smaller is stricter.
PT100: AA < A < B < C < out-of-class; thermocouples: 1 < 2 < out-of-class. -/
def classRank : String → ℕ
  | "AA" => 0
  | "A" => 1
  | "B" => 2
  | "C" => 3
  | "Klasa 1" => 1
  | "Klasa 2" => 2
  | _ => 10

/-- Spec-side: the tolerance thresholds the PT100 classifier consults at
temperature `t`. -/
def toleranceTablePT100 (t : ℚ) : List ℚ :=
  [PT100_CLASS_AA_TOLERANCE t, PT100_CLASS_A_TOLERANCE t,
   PT100_CLASS_B_TOLERANCE t, PT100_CLASS_C_TOLERANCE t]

/-- Spec-side: the tolerance thresholds the thermocouple classifier consults
for type `tc` at temperature `t`. -/
def toleranceTableTC (tc : String) (t : ℚ) : List ℚ :=
  if tc = "K" then [TC_K_CLASS_1_TOLERANCE t, TC_K_CLASS_2_TOLERANCE t]
  else if tc = "S" then [TC_S_CLASS_1_TOLERANCE t, TC_S_CLASS_1_TOLERANCE t * (3/2)]
  else [max (3/2) (4/1000 * |t|), max (5/2) (75/10000 * |t|)]

/-- Spec-side: the tolerance thresholds `classify_sensor` consults for a
sensor type at temperature `t`. -/
def toleranceTable (sensorType : String) (t : ℚ) : List ℚ :=
  if sensorType = "PT100" then toleranceTablePT100 t
  else if hasTCMarker sensorType then toleranceTableTC (upperStr (tcTypeOf sensorType)) t
  else toleranceTablePT100 t

/-! ## Calibration engine (`calibration/engine.py`, class `CalibrationEngine`) -/

/-- A row written by `_save_measurement` (database `add_measurement` /
logger `log_measurement`). -/
structure SavedMeas where
  channel : String
  measured : ℚ
  reference : ℚ
  raw : ℚ
  point : ℚ
deriving DecidableEq

/-- Qt signals emitted by the engine that matter to the claims. -/
inductive EngEvent where
  | channelChanged (c : String)
  | measurementTaken (c : String) (temp ref : ℚ)
  | errorOccurred (msg : String)
deriving DecidableEq

/-- The engine state read and written by `_measure_point`. -/
structure MeasState where
  readings : String → List ℚ
  lastValues : String → Option ℚ
  refReadings : List ℚ
  saved : List SavedMeas
  events : List EngEvent
  warnings : List String

/-- The `ref_temp` used for a successful sample of `channel`:
`last_channel_values.get(REFERENCE_CHANNEL, target)` after storing the new
value, overridden by the sample itself on the reference channel. -/
def refTempFor (st : MeasState) (channel : String) (temp target : ℚ) : ℚ :=
  if channel = REFERENCE_CHANNEL then temp
  else (st.lastValues REFERENCE_CHANNEL).getD target

/-- The per-channel body of `_measure_point`'s round loop: configure the
channel, emit `channel_changed`, read temperature and raw value; on
`success and temp != float('inf')` append the sample, record it, and emit
`measurement_taken` (raw value `raw if success_raw else 0`); otherwise log
a warning. -/
def stepChannel (target : ℚ) (st : MeasState) (channel : String)
    (tempRead : Bool × MeterVal) (rawRead : Bool × ℚ) : MeasState :=
  let st1 := { st with events := st.events ++ [.channelChanged channel] }
  match tempRead with
  | (true, .num temp) =>
    let refT := refTempFor st1 channel temp target
    { st1 with
      readings := fun c => if c = channel then st1.readings c ++ [temp] else st1.readings c
      lastValues := fun c => if c = channel then some temp else st1.lastValues c
      refReadings := if channel = REFERENCE_CHANNEL then st1.refReadings ++ [temp]
                     else st1.refReadings
      saved := st1.saved ++
        [{ channel := channel, measured := temp, reference := refT,
           raw := if rawRead.1 then rawRead.2 else 0, point := target }]
      events := st1.events ++ [.measurementTaken channel temp refT] }
  | _ =>
    { st1 with warnings := st1.warnings ++ ["Failed to read channel " ++ channel] }

/-- One round of `_measure_point`: visit every active channel in order. -/
def measureRound (target : ℚ) (channels : List String)
    (reads : String → (Bool × MeterVal) × (Bool × ℚ)) (st : MeasState) : MeasState :=
  channels.foldl (fun s c => stepChannel target s c (reads c).1 (reads c).2) st

/-- `_measure_point`'s sampling loop: clear the per-point buffers, then run
`rounds` measurement rounds (the code uses `MEASUREMENTS_PER_POINT`); the
device outcomes for round `i` and channel `c` are given by `reads i c`. -/
def measure_point (target : ℚ) (channels : List String) (rounds : ℕ)
    (reads : ℕ → String → (Bool × MeterVal) × (Bool × ℚ)) (st0 : MeasState) : MeasState :=
  (List.range rounds).foldl
    (fun s i => measureRound target channels (reads i) s)
    { st0 with readings := fun _ => [], refReadings := [] }

/-- The per-(channel, point) aggregate built by `_calculate_point_results`
(the square-root-valued uncertainty fields are tracked separately and do not
bear on any claim here). -/
structure PointResult where
  channel : String
  point_temperature : ℚ
  avg_measured_temp : ℚ
  avg_reference_temp : ℚ
  n_measurements : ℕ
  error : ℚ
  max_absolute_error : ℚ
  sensor_class : String
  is_compliant : Bool
deriving DecidableEq

/-- `max(abs(t - ref_mean) for t in temps)` (temps nonempty; the values are
nonnegative, so a fold of `max` from 0 agrees with Python's `max`). -/
def maxAbsDev (temps : List ℚ) (m : ℚ) : ℚ :=
  (temps.map (fun t => |t - m|)).foldr max 0

/-- `_calculate_point_results`: reference mean is the mean of the reference
channel's buffer, falling back to the target temperature when that buffer is
empty; channels with an empty buffer are skipped (`continue`); each surviving
channel yields a `PointResult`. -/
def calculate_point_results (channels : List String) (sensorTypes : String → String)
    (readings : String → List ℚ) (target : ℚ) : List (String × PointResult) :=
  let ref_temps := readings REFERENCE_CHANNEL
  let ref_mean := if ref_temps = [] then target else calculate_mean ref_temps
  channels.filterMap (fun channel =>
    let temps := readings channel
    if temps = [] then none
    else
      let mean_temp := calculate_mean temps
      let error := mean_temp - ref_mean
      let sclass := classify_sensor (sensorTypes channel) |error| target
      some (channel,
        { channel := channel
          point_temperature := target
          avg_measured_temp := mean_temp
          avg_reference_temp := ref_mean
          n_measurements := temps.length
          error := error
          max_absolute_error := maxAbsDev temps ref_mean
          sensor_class := sclass
          is_compliant := !(sclass == "Poza klasą" || sclass == "") }))

/-! ### Engine control state and `start_calibration` -/

/-- The control fields of `CalibrationEngine` touched by `start_calibration`. -/
structure EngineCtl where
  is_running : Bool
  is_paused : Bool
  stop_requested : Bool
  calibration_points : List ℚ
  active_channels : List String
  current_point_index : ℕ
  current_channel_index : ℕ
  channel_readings : String → List ℚ
  reference_readings : List ℚ

/-- `CalibrationEngine.start_calibration`: if a run is already active, log a
warning and return; otherwise set the flags, reset indices, clear the sample
buffers and launch the worker. The returned Boolean records whether a worker
run was begun. -/
def start_calibration (e : EngineCtl) : EngineCtl × Bool :=
  if e.is_running then (e, false)
  else
    ({ e with
        is_running := true
        is_paused := false
        stop_requested := false
        current_point_index := 0
        current_channel_index := 0
        channel_readings := fun _ => []
        reference_readings := [] }, true)

/-- `CalibrationEngine.set_calibration_points`: stores `sorted(points)`
(modelled with the stable ascending insertion sort). -/
def set_calibration_points (points : List ℚ) : List ℚ :=
  points.insertionSort (· ≤ ·)

/-! ### The worker loop (`_calibration_worker`) -/

/-- Externally visible actions of one worker run. `setSetpoint` is the
furnace command issued at the top of the point loop; `pointMeasured` marks the
measurement burst of a point; `park` is the final
`furnace.set_setpoint(PARKING_TEMPERATURE)`; `finalize` is
`_finalize_session()`. -/
inductive WAction where
  | setSetpoint (t : ℚ)
  | pointMeasured (t : ℚ)
  | park
  | finalize
deriving DecidableEq

/-- How the processing of one calibration point goes, as far as the stop flag
is concerned. `_wait_for_stability` leaves its loop only on a stop request, so
a `False` return means a stop was observed. -/
inductive PointPhase where
  | stopBeforePoint
  | stopDuringWait
  | measured (stopSeen : Bool)
deriving DecidableEq

/-- Whether a stop request was observed while processing point `i`. -/
def PointPhase.stopSeen : PointPhase → Bool
  | .stopBeforePoint => true
  | .stopDuringWait => true
  | .measured b => b

/-- The environment of one worker run: the phase outcome of each point index
and the stop-flag value at the final check after the loop. -/
structure WorkerEnv where
  phase : ℕ → PointPhase
  stopAtEnd : Bool

/-- The stop flag is cooperative and never cleared during a run: once a stop
is observed at point `i`, the loop-top check of point `i+1` sees it, and the
final check after the loop sees it. -/
def ValidEnv (env : WorkerEnv) : Prop :=
  (∀ i, (env.phase i).stopSeen = true → env.phase (i + 1) = .stopBeforePoint) ∧
  (∀ i, (env.phase i).stopSeen = true → env.stopAtEnd = true)

/-- The point loop of `_calibration_worker` over the stored (sorted) points:
check the stop flag, command the setpoint, wait for stability (aborted only by
a stop, which breaks), then measure the point and continue. -/
def workerLoop (env : WorkerEnv) : List ℚ → ℕ → List WAction
  | [], _ => []
  | t :: rest, i =>
    match env.phase i with
    | .stopBeforePoint => []
    | .stopDuringWait => [.setSetpoint t]
    | .measured _ => .setSetpoint t :: .pointMeasured t :: workerLoop env rest (i + 1)

/-- `_calibration_worker`: run the point loop; if no stop was requested,
park the furnace and finalize the session. -/
def calibration_worker (env : WorkerEnv) (points : List ℚ) : List WAction :=
  let acts := workerLoop env points 0
  if env.stopAtEnd then acts else acts ++ [.park, .finalize]

/-- The targets of the points whose measurement burst ran. -/
def measuredTargets (acts : List WAction) : List ℚ :=
  acts.filterMap (fun a => match a with | .pointMeasured t => some t | _ => none)

/-! ## Helper definitions used by the theorems -/

/-- The sample a temperature read contributes to the channel buffer:
`some q` iff the read succeeded with a finite value (`success and
temp != float('inf')`). -/
def successTemp (tr : Bool × MeterVal) : Option ℚ :=
  match tr with
  | (true, .num q) => some q
  | _ => none

/-- The samples channel `c` accumulates over `rounds` rounds of
`_measure_point` under the device outcomes `reads`. -/
def collectedSamples (channels : List String) (rounds : ℕ)
    (reads : ℕ → String → (Bool × MeterVal) × (Bool × ℚ)) (c : String) : List ℚ :=
  (List.range rounds).foldl
    (fun acc i =>
      acc ++ channels.filterMap (fun ch => if c = ch then successTemp ((reads i ch).1) else none))
    []

/-- A blank measurement state. -/
def emptyMeas : MeasState :=
  { readings := fun _ => []
    lastValues := fun _ => none
    refReadings := []
    saved := []
    events := []
    warnings := [] }

/-- An idle engine with an empty point list and a single active channel. -/
def idleEmptyEngine : EngineCtl :=
  { is_running := false
    is_paused := false
    stop_requested := false
    calibration_points := []
    active_channels := ["A0"]
    current_point_index := 0
    current_channel_index := 0
    channel_readings := fun _ => []
    reference_readings := [] }

/-- Point buffers in which the reference channel collected no sample while
channel `"B0"` collected one. -/
def cexReadings : String → List ℚ :=
  fun c => if c = "B0" then [50] else []

/-- The `PointResult` `_calculate_point_results` produces for `"B0"` from
`cexReadings` at target 100. -/
def cexResB0 : PointResult :=
  { channel := "B0"
    point_temperature := 100
    avg_measured_temp := 50
    avg_reference_temp := 100
    n_measurements := 1
    error := -50
    max_absolute_error := 50
    sensor_class := "Poza klasą"
    is_compliant := false }

/-- Point buffers with reference samples `[99, 101]` and one `"B0"` sample. -/
def witReadings : String → List ℚ :=
  fun c => if c = "B0" then [102] else if c = "A0" then [99, 101] else []

/-- The `PointResult` `_calculate_point_results` produces for `"B0"` from
`witReadings` at target 100. -/
def witResB0 : PointResult :=
  { channel := "B0"
    point_temperature := 100
    avg_measured_temp := 102
    avg_reference_temp := 100
    n_measurements := 1
    error := 2
    max_absolute_error := 2
    sensor_class := "Poza klasą"
    is_compliant := false }

/-- The CRC-16/Modbus check input, the ASCII bytes of `"123456789"`. -/
def crcCheckInput : List ℕ :=
  [0x31, 0x32, 0x33, 0x34, 0x35, 0x36, 0x37, 0x38, 0x39]

/-- A well-formed 9-byte furnace reply: slave 1, function 3, byte count 4,
registers encoding the float `100.0`, little-endian CRC trailer. -/
def goodReply : List ℕ := [1, 3, 4, 66, 200, 0, 0, 111, 181]

/-- An environment in which no stop is ever requested. -/
def noStopEnv : WorkerEnv :=
  { phase := fun _ => .measured false, stopAtEnd := false }

/-- The ways a furnace reply can fail `_parse_float_response`'s validations:
short reply, wrong slave id, exception function code, wrong byte count, or
CRC mismatch. -/
def responseInvalid (r : List ℕ) : Prop :=
  r.length < 9 ∨
  r.getD 0 0 ≠ FURNACE_SLAVE_ID ∨
  r.getD 1 0 = (MODBUS_READ_HOLDING ||| 0x80) ∨
  r.getD 2 0 ≠ 4 ∨
  crc_le (r.getD 7 0) (r.getD 8 0) ≠ calculate_crc (r.take 7)

instance (r : List ℕ) : Decidable (responseInvalid r) := by
  unfold responseInvalid
  infer_instance

/-! # Theorems -/

/-! ## C1: preconditions of `start_calibration` -/

/-- C1 counterexample: an idle engine with an empty point list and a single
active channel nevertheless begins a calibration run when
`start_calibration` is called — the engine checks only `is_running`,
refuting the claim that an empty point list or fewer than two active
channels prevents starting. -/
theorem C1_counterexample :
    idleEmptyEngine.calibration_points = [] ∧
    idleEmptyEngine.active_channels.length < 2 ∧
    idleEmptyEngine.is_running = false ∧
    (start_calibration idleEmptyEngine).2 = true ∧
    (start_calibration idleEmptyEngine).1.is_running = true := by
  refine ⟨rfl, by decide, rfl, rfl, rfl⟩

/-- C1 (amended): `start_calibration` begins a run iff no run is already
active; neither the calibration-point list nor the active-channel count is
examined, and both are left unchanged by the call. -/
theorem C1_start_unguarded (e : EngineCtl) :
    ((start_calibration e).2 = true ↔ e.is_running = false) ∧
    (start_calibration e).1.calibration_points = e.calibration_points ∧
    (start_calibration e).1.active_channels = e.active_channels ∧
    (start_calibration e).1.is_running = true := by
  unfold start_calibration
  cases h : e.is_running <;> simp [h]

/-! ## C9: sample standard deviation -/

/-- C9: `calculate_std` returns 0 for fewer than two samples, and for two or
more samples it is the Bessel-corrected (n−1) sample standard deviation,
here written via the closed form `(n·Σx² − (Σx)²) / (n·(n−1))`. -/
theorem C9_std_bessel (xs : List ℚ) :
    (xs.length < 2 → calculate_std xs = 0) ∧
    (2 ≤ xs.length → calculate_std xs = Real.sqrt (besselSampleVariance xs)) := by
  constructor
  · intro h
    simp [calculate_std, h]
  · intro h
    rw [calculate_std, if_neg (by omega)]
    rw [stdRadicand_eq_besselSampleVariance xs h]

/-- C9 witness: concrete evaluations through `C9_std_bessel`. -/
theorem C9_witness :
    calculate_std ([5] : List ℚ) = 0 ∧ calculate_std ([0, 0] : List ℚ) = 0 := by
  constructor
  · exact (C9_std_bessel [5]).1 (by decide)
  · have h := (C9_std_bessel [0, 0]).2 (by decide)
    rw [h]
    norm_num [besselSampleVariance]

/-! ## C5: furnace reply validation -/

lemma parse_none_of_invalid (r : List ℕ) (h : responseInvalid r) :
    parse_float_response r = none := by
  unfold responseInvalid at h
  unfold parse_float_response
  rcases h with h | h | h | h | h <;>
    first
      | (simp only [List.getD_eq_getElem?_getD] at h; simp [h])
      | simp [h]

lemma parse_some_of_valid (r : List ℕ) (h : ¬ responseInvalid r) :
    parse_float_response r =
      some (decode_float32 (word_be (r.getD 3 0) (r.getD 4 0) (r.getD 5 0) (r.getD 6 0))) := by
  unfold responseInvalid at h
  push_neg at h
  obtain ⟨h1, h2, h3, h4, h5⟩ := h
  unfold parse_float_response
  simp only [List.getD_eq_getElem?_getD] at h2 h3 h4 h5 ⊢
  simp [h1.not_lt, h2, h3, h4, h5]

lemma valid_of_parse_isSome (r : List ℕ) (h : (parse_float_response r).isSome = true) :
    ¬ responseInvalid r := by
  intro hcon
  rw [parse_none_of_invalid r hcon] at h
  simp at h

/-- C5: the register-read parser returns `ok = false` for every reply failing
any of the validations (length, slave id, exception function code, byte
count = 4, CRC), and only a reply passing all of them is decoded — as the two
big-endian 16-bit registers read as a big-endian IEEE-754 float. -/
theorem C5_reply_validation (r : List ℕ) :
    (responseInvalid r → furnace_read_value r = (false, .finite 0)) ∧
    (¬ responseInvalid r →
      furnace_read_value r =
        (true, decode_float32 (word_be (r.getD 3 0) (r.getD 4 0) (r.getD 5 0) (r.getD 6 0)))) := by
  constructor
  · intro h
    rw [furnace_read_value, parse_none_of_invalid r h]
  · intro h
    rw [furnace_read_value, parse_some_of_valid r h]

set_option maxRecDepth 8000 in
/-- C5 witness: a reply with a corrupted CRC trailer byte is rejected, the
uncorrupted reply decodes to 100.0. -/
theorem C5_witness :
    furnace_read_value [1, 3, 4, 66, 200, 0, 0, 111, 182] = (false, .finite 0) ∧
    furnace_read_value goodReply = (true, .finite 100) := by
  constructor
  · exact (C5_reply_validation [1, 3, 4, 66, 200, 0, 0, 111, 182]).1 (by decide)
  · have h := (C5_reply_validation goodReply).2 (by decide)
    rw [h]
    norm_num [goodReply, word_be, decode_float32]

/-! ## C7: classification monotonicity -/

lemma classifyPT100_mono (t : ℚ) {e1 e2 : ℚ} (h : |e1| ≤ |e2|) :
    classRank (classifyPT100 e1 t) ≤ classRank (classifyPT100 e2 t) := by
  simp only [classifyPT100]
  split_ifs <;> first | decide | linarith

lemma classifyTC_mono (tc : String) (t : ℚ) {e1 e2 : ℚ} (h : |e1| ≤ |e2|) :
    classRank (classifyTC tc e1 t) ≤ classRank (classifyTC tc e2 t) := by
  simp only [classifyTC]
  split_ifs <;> first | decide | linarith

lemma classifyPT100_out (t e : ℚ)
    (h : ∀ th ∈ toleranceTablePT100 t, th < |e|) :
    classifyPT100 e t = "Poza klasą" := by
  simp only [toleranceTablePT100, List.mem_cons, List.not_mem_nil, or_false,
    forall_eq_or_imp, forall_eq] at h
  obtain ⟨hAA, hA, hB, hC⟩ := h
  simp only [classifyPT100]
  split_ifs <;> first | rfl | linarith

lemma classifyTC_out (tc : String) (t e : ℚ)
    (h : ∀ th ∈ toleranceTableTC tc t, th < |e|) :
    classifyTC tc e t = "Poza klasą" := by
  simp only [toleranceTableTC] at h
  simp only [classifyTC]
  by_cases hK : tc = "K"
  · rw [if_pos hK] at h
    rw [if_pos hK]
    simp only [List.mem_cons, List.not_mem_nil, or_false, forall_eq_or_imp, forall_eq] at h
    obtain ⟨h1, h2⟩ := h
    split_ifs <;> first | rfl | linarith
  · rw [if_neg hK] at h
    rw [if_neg hK]
    by_cases hS : tc = "S"
    · rw [if_pos hS] at h
      rw [if_pos hS]
      simp only [List.mem_cons, List.not_mem_nil, or_false, forall_eq_or_imp, forall_eq] at h
      obtain ⟨h1, h2⟩ := h
      split_ifs <;> first | rfl | linarith
    · rw [if_neg hS] at h
      rw [if_neg hS]
      simp only [List.mem_cons, List.not_mem_nil, or_false, forall_eq_or_imp, forall_eq] at h
      obtain ⟨h1, h2⟩ := h
      split_ifs <;> first | rfl | linarith

/-- C7: classification is monotone per sensor type — growing `|error|` never
yields a strictly stricter class — and an error exceeding every threshold of
the sensor type's tolerance table is classified out of class
("Poza klasą"). -/
theorem C7_classification_monotone :
    (∀ (sensorType : String) (t e1 e2 : ℚ), |e1| ≤ |e2| →
      classRank (classify_sensor sensorType e1 t) ≤
        classRank (classify_sensor sensorType e2 t)) ∧
    (∀ (sensorType : String) (t e : ℚ),
      (∀ th ∈ toleranceTable sensorType t, th < |e|) →
      classify_sensor sensorType e t = "Poza klasą") := by
  constructor
  · intro s t e1 e2 h
    simp only [classify_sensor]
    split_ifs
    · exact classifyPT100_mono t h
    · exact classifyTC_mono _ t h
    · exact classifyPT100_mono t h
  · intro s t e h
    simp only [classify_sensor]
    simp only [toleranceTable] at h
    split_ifs at h ⊢ with h1 h2
    · exact classifyPT100_out t e h
    · exact classifyTC_out _ t e h
    · exact classifyPT100_out t e h

/-- C7 witness: concrete instances of both parts for `"PT100"`. -/
theorem C7_witness :
    classRank (classify_sensor "PT100" (1/5) 0) ≤
      classRank (classify_sensor "PT100" (1/2) 0) ∧
    classify_sensor "PT100" 1000 0 = "Poza klasą" := by
  constructor
  · refine C7_classification_monotone.1 "PT100" 0 (1/5) (1/2) ?_
    rw [abs_of_nonneg (by norm_num : (0:ℚ) ≤ 1/5), abs_of_nonneg (by norm_num : (0:ℚ) ≤ 1/2)]
    norm_num
  · refine C7_classification_monotone.2 "PT100" 0 1000 ?_
    intro th hth
    rw [abs_of_nonneg (by norm_num : (0:ℚ) ≤ 1000)]
    simp only [toleranceTable, toleranceTablePT100, PT100_CLASS_AA_TOLERANCE,
      PT100_CLASS_A_TOLERANCE, PT100_CLASS_B_TOLERANCE, PT100_CLASS_C_TOLERANCE,
      abs_zero, List.mem_cons, List.not_mem_nil, or_false, if_true, reduceIte] at hth
    rcases hth with rfl | rfl | rfl | rfl <;> norm_num

/-! ## C2: point aggregation against the reference mean -/

/-- C2 counterexample: when the reference channel collected no sample,
`_calculate_point_results` uses the target temperature (here 100) as the
point's reference value; it is not the mean of the reference channel's
(empty) sample list, and the error is not measured-mean minus that mean. -/
theorem C2_counterexample :
    ("B0", cexResB0) ∈ calculate_point_results ["A0", "B0"] (fun _ => "PT100") cexReadings 100 ∧
    cexReadings REFERENCE_CHANNEL = [] ∧
    cexResB0.avg_reference_temp ≠ calculate_mean (cexReadings REFERENCE_CHANNEL) ∧
    cexResB0.error ≠ cexResB0.avg_measured_temp - calculate_mean (cexReadings REFERENCE_CHANNEL) := by
  have heval : calculate_point_results ["A0", "B0"] (fun _ => "PT100") cexReadings 100 =
      [("B0", cexResB0)] := by
    norm_num [calculate_point_results, cexReadings, cexResB0, calculate_mean, maxAbsDev,
      classify_sensor, classifyPT100, REFERENCE_CHANNEL,
      PT100_CLASS_AA_TOLERANCE, PT100_CLASS_A_TOLERANCE,
      PT100_CLASS_B_TOLERANCE, PT100_CLASS_C_TOLERANCE, List.filterMap_cons,
      show ("A0" : String) ≠ "B0" from by decide, show ("B0" : String) ≠ "A0" from by decide]
  refine ⟨heval ▸ List.mem_singleton.2 rfl, by decide, ?_, ?_⟩
  · simp [cexResB0, cexReadings, calculate_mean, REFERENCE_CHANNEL]
  · simp [cexResB0, cexReadings, calculate_mean, REFERENCE_CHANNEL]
    norm_num

/-- C2 (amended): every entry of a point's result set has its measured mean
equal to the mean of that channel's samples; when the reference channel
collected at least one sample the reference value is the mean of those
samples and the error is measured mean minus reference mean; when the
reference channel collected none, the target temperature stands in for the
reference mean. -/
theorem C2_point_aggregation (channels : List String) (sensorTypes : String → String)
    (readings : String → List ℚ) (target : ℚ) (c : String) (res : PointResult)
    (hmem : (c, res) ∈ calculate_point_results channels sensorTypes readings target) :
    res.avg_measured_temp = calculate_mean (readings c) ∧
    (readings REFERENCE_CHANNEL ≠ [] →
      res.avg_reference_temp = calculate_mean (readings REFERENCE_CHANNEL) ∧
      res.error = calculate_mean (readings c) - calculate_mean (readings REFERENCE_CHANNEL)) ∧
    (readings REFERENCE_CHANNEL = [] →
      res.avg_reference_temp = target ∧
      res.error = calculate_mean (readings c) - target) := by
  simp only [calculate_point_results, List.mem_filterMap] at hmem
  obtain ⟨a, _, hf⟩ := hmem
  by_cases hta : readings a = []
  · simp [hta] at hf
  · rw [if_neg hta] at hf
    rw [Option.some_inj, Prod.mk.injEq] at hf
    obtain ⟨rfl, rfl⟩ := hf
    refine ⟨rfl, fun h => ?_, fun h => ?_⟩
    · constructor <;> simp [if_neg h]
    · constructor <;> simp [if_pos h]

/-- C2 witness: with reference samples `[99, 101]`, the `"B0"` result's
reference value is their mean and its error is measured mean minus it. -/
theorem C2_witness :
    witResB0.avg_reference_temp = calculate_mean (witReadings REFERENCE_CHANNEL) ∧
    witResB0.error =
      calculate_mean (witReadings "B0") - calculate_mean (witReadings REFERENCE_CHANNEL) := by
  have hmem : ("B0", witResB0) ∈
      calculate_point_results ["A0", "B0"] (fun _ => "PT100") witReadings 100 := by
    have heval : calculate_point_results ["A0", "B0"] (fun _ => "PT100") witReadings 100 =
        [("A0", ⟨"A0", 100, 100, 100, 2, 0, 1, "AA", true⟩), ("B0", witResB0)] := by
      norm_num [calculate_point_results, witReadings, witResB0, calculate_mean, maxAbsDev,
        classify_sensor, classifyPT100, REFERENCE_CHANNEL,
        PT100_CLASS_AA_TOLERANCE, PT100_CLASS_A_TOLERANCE,
        PT100_CLASS_B_TOLERANCE, PT100_CLASS_C_TOLERANCE, List.filterMap_cons, max_def,
        show ("A0" : String) ≠ "B0" from by decide, show ("B0" : String) ≠ "A0" from by decide,
        show ([99, 101] : List ℚ) ≠ [] from by simp,
        show ([102] : List ℚ) ≠ [] from by simp]
      decide
    rw [heval]
    simp
  exact (C2_point_aggregation ["A0", "B0"] (fun _ => "PT100") witReadings 100 "B0" witResB0
    hmem).2.1 (by decide)

/-! ## C3: overflow handling -/

/-- C3 counterexample: for the overflow response `"OVF"` the client returns
the positive-infinity sentinel with the success flag `False` — the same flag
value as a protocol error — refuting the claim that the sentinel is returned
as a non-error result. -/
theorem C3_counterexample :
    cropico_read_temperature "OVF".toList = (false, .posInf) ∧
    cropico_read_temperature "OVF".toList ≠ (true, .posInf) := by
  decide

/-- C3 (amended): a response carrying the overflow marker and no numeric
token yields `(False, float('inf'))` — failure-flagged, distinguished from
other failures only by the infinite value; the engine's per-read handler
drops any reading that is not a flagged-true finite value from the buffers
and the saved data, emits no error event, and only logs a read warning. -/
theorem C3_overflow_handling :
    (∀ r : List Char, r.isEmpty = false → searchNum r = none → hasOverflowMarker r = true →
      cropico_read_temperature r = (false, .posInf)) ∧
    (∀ (target : ℚ) (st : MeasState) (c : String) (rawRead : Bool × ℚ) (v : MeterVal),
      successTemp (false, v) = none ∧
      (stepChannel target st c (false, v) rawRead).readings = st.readings ∧
      (stepChannel target st c (false, v) rawRead).saved = st.saved ∧
      (stepChannel target st c (false, v) rawRead).events = st.events ++ [.channelChanged c] ∧
      (stepChannel target st c (false, v) rawRead).warnings =
        st.warnings ++ ["Failed to read channel " ++ c]) ∧
    (∀ (target : ℚ) (st : MeasState) (c : String) (rawRead : Bool × ℚ),
      (stepChannel target st c (true, .posInf) rawRead).readings = st.readings ∧
      (stepChannel target st c (true, .posInf) rawRead).saved = st.saved ∧
      (stepChannel target st c (true, .posInf) rawRead).events =
        st.events ++ [.channelChanged c] ∧
      (stepChannel target st c (true, .posInf) rawRead).warnings =
        st.warnings ++ ["Failed to read channel " ++ c]) := by
  refine ⟨fun r h1 h2 h3 => ?_, fun target st c rawRead v => ?_, fun target st c rawRead => ?_⟩
  · simp [cropico_read_temperature, h1, h2, h3]
  · cases v <;> simp [stepChannel, successTemp]
  · simp [stepChannel]

/-- C3 witness: a lowercase overflow response, and the engine step leaving
buffers, saved data and events (beyond `channel_changed`) untouched. -/
theorem C3_witness :
    cropico_read_temperature "ovf?".toList = (false, .posInf) ∧
    (stepChannel 100 emptyMeas "B1" (false, .posInf) (true, 5)).saved = [] ∧
    (stepChannel 100 emptyMeas "B1" (false, .posInf) (true, 5)).events =
      [EngEvent.channelChanged "B1"] := by
  refine ⟨C3_overflow_handling.1 "ovf?".toList (by decide) (by decide) (by decide), ?_, ?_⟩
  · have h := (C3_overflow_handling.2.1 100 emptyMeas "B1" (true, 5) .posInf).2.2.1
    simpa [emptyMeas] using h
  · have h := (C3_overflow_handling.2.1 100 emptyMeas "B1" (true, 5) .posInf).2.2.2.1
    simpa [emptyMeas] using h

/-! ## C10: raw-value read failure never drops a sample -/

/-- C10: if a channel's temperature read succeeds with a finite value but the
raw-value read fails, the engine still appends the sample to the channel's
buffer, saves it with raw value 0, and emits `measurement_taken`; the sample
is not skipped and no warning is logged. -/
theorem C10_raw_failure_kept (target : ℚ) (st : MeasState) (c : String) (temp : ℚ)
    (rawRead : Bool × ℚ) (hraw : rawRead.1 = false) :
    (stepChannel target st c (true, .num temp) rawRead).readings c =
      st.readings c ++ [temp] ∧
    (stepChannel target st c (true, .num temp) rawRead).saved =
      st.saved ++ [{ channel := c, measured := temp,
                     reference := refTempFor st c temp target, raw := 0, point := target }] ∧
    EngEvent.measurementTaken c temp (refTempFor st c temp target) ∈
      (stepChannel target st c (true, .num temp) rawRead).events ∧
    (stepChannel target st c (true, .num temp) rawRead).warnings = st.warnings := by
  obtain ⟨rb, rv⟩ := rawRead
  cases rb
  · simp [stepChannel, refTempFor]
  · simp at hraw

/-- C10 witness: a concrete raw-read failure with a successful 25 °C sample. -/
theorem C10_witness :
    (stepChannel 100 emptyMeas "B0" (true, .num 25) (false, 7)).readings "B0" = [25] ∧
    (stepChannel 100 emptyMeas "B0" (true, .num 25) (false, 7)).saved =
      [{ channel := "B0", measured := 25, reference := 100, raw := 0, point := 100 }] ∧
    (stepChannel 100 emptyMeas "B0" (true, .num 25) (false, 7)).warnings = [] := by
  have h := C10_raw_failure_kept 100 emptyMeas "B0" 25 (false, 7) rfl
  refine ⟨?_, ?_, ?_⟩
  · simpa [emptyMeas] using h.1
  · have h2 := h.2.1
    simpa [emptyMeas, refTempFor, REFERENCE_CHANNEL] using h2
  · simpa [emptyMeas] using h.2.2.2

/-! ## C4: result-set entries iff at least one successful sample -/

lemma stepChannel_readings_eq (target : ℚ) (st : MeasState) (ch : String)
    (tr : Bool × MeterVal) (rr : Bool × ℚ) (c : String) :
    (stepChannel target st ch tr rr).readings c =
      st.readings c ++ (if c = ch then (successTemp tr).toList else []) := by
  rcases tr with ⟨b, v⟩
  cases b <;> cases v <;>
    (by_cases hca : c = ch <;> simp [stepChannel, successTemp, hca])

lemma measureRound_readings (target : ℚ) (channels : List String)
    (reads : String → (Bool × MeterVal) × (Bool × ℚ)) (st : MeasState) (c : String) :
    (measureRound target channels reads st).readings c =
      st.readings c ++
        channels.filterMap (fun ch => if c = ch then successTemp ((reads ch).1) else none) := by
  induction channels generalizing st with
  | nil => simp [measureRound]
  | cons a l ih =>
    show (measureRound target l reads (stepChannel target st a (reads a).1 (reads a).2)).readings c = _
    rw [ih, stepChannel_readings_eq, List.filterMap_cons]
    by_cases hca : c = a
    · cases hst : successTemp ((reads a).1) <;> simp [hca, hst]
    · simp [hca]

lemma measure_point_readings (target : ℚ) (channels : List String) (rounds : ℕ)
    (reads : ℕ → String → (Bool × MeterVal) × (Bool × ℚ)) (st0 : MeasState) (c : String) :
    (measure_point target channels rounds reads st0).readings c =
      collectedSamples channels rounds reads c := by
  unfold measure_point collectedSamples
  induction rounds with
  | zero => simp
  | succ n ih =>
    rw [List.range_succ, List.foldl_append, List.foldl_append, List.foldl_cons,
      List.foldl_cons, List.foldl_nil, List.foldl_nil, measureRound_readings, ih]

lemma collectedSamples_eq_nil_iff (channels : List String) (rounds : ℕ)
    (reads : ℕ → String → (Bool × MeterVal) × (Bool × ℚ)) (c : String) :
    collectedSamples channels rounds reads c = [] ↔
      ∀ i < rounds,
        channels.filterMap (fun ch => if c = ch then successTemp ((reads i ch).1) else none)
          = [] := by
  unfold collectedSamples
  induction rounds with
  | zero => simp
  | succ n ih =>
    rw [List.range_succ, List.foldl_append, List.foldl_cons, List.foldl_nil,
      List.append_eq_nil, ih]
    constructor
    · rintro ⟨h1, h2⟩ i hi
      rcases Nat.lt_succ_iff_lt_or_eq.1 hi with hlt | rfl
      · exact h1 i hlt
      · exact h2
    · intro h
      exact ⟨fun i hi => h i (Nat.lt_succ_of_lt hi), h n (Nat.lt_succ_self n)⟩

lemma contrib_eq_nil_iff (channels : List String)
    (reads : String → (Bool × MeterVal) × (Bool × ℚ)) (c : String) :
    channels.filterMap (fun ch => if c = ch then successTemp ((reads ch).1) else none) = [] ↔
      (c ∈ channels → successTemp ((reads c).1) = none) := by
  rw [List.filterMap_eq_nil_iff]
  constructor
  · intro h hc
    have := h c hc
    rwa [if_pos rfl] at this
  · intro h a ha
    by_cases hca : c = a
    · subst hca
      rw [if_pos rfl]
      exact h ha
    · rw [if_neg hca]

/-- C4: a channel has an entry in the point's result set iff it is active and
at least one of its reads in the measurement burst succeeded with a finite
value; a channel with zero successful reads is omitted entirely. -/
theorem C4_result_iff (channels : List String) (sensorTypes : String → String)
    (target : ℚ) (rounds : ℕ)
    (reads : ℕ → String → (Bool × MeterVal) × (Bool × ℚ)) (st0 : MeasState) (c : String) :
    (∃ res, (c, res) ∈ calculate_point_results channels sensorTypes
        (measure_point target channels rounds reads st0).readings target) ↔
      (c ∈ channels ∧ ∃ i < rounds, successTemp ((reads i c).1) ≠ none) := by
  have hbuf : (measure_point target channels rounds reads st0).readings c =
      collectedSamples channels rounds reads c :=
    measure_point_readings target channels rounds reads st0 c
  constructor
  · rintro ⟨res, hmem⟩
    simp only [calculate_point_results, List.mem_filterMap] at hmem
    obtain ⟨a, ha, hf⟩ := hmem
    by_cases hta : (measure_point target channels rounds reads st0).readings a = []
    · simp [hta] at hf
    · rw [if_neg hta, Option.some_inj, Prod.mk.injEq] at hf
      obtain ⟨rfl, -⟩ := hf
      refine ⟨ha, ?_⟩
      rw [hbuf] at hta
      by_contra hno
      push_neg at hno
      refine hta ((collectedSamples_eq_nil_iff channels rounds reads a).2 ?_)
      intro i hi
      exact (contrib_eq_nil_iff channels (reads i) a).2 (fun _ => hno i hi)
  · rintro ⟨hc, i, hi, hsucc⟩
    have hta : (measure_point target channels rounds reads st0).readings c ≠ [] := by
      rw [hbuf]
      intro hnil
      exact hsucc ((contrib_eq_nil_iff channels (reads i) c).1
        ((collectedSamples_eq_nil_iff channels rounds reads c).1 hnil i hi) hc)
    simp only [calculate_point_results, List.mem_filterMap]
    exact ⟨_, c, hc, by rw [if_neg hta]⟩

/-! ## C8: visit order and parking -/

lemma park_not_in_workerLoop (env : WorkerEnv) (l : List ℚ) (i : ℕ) :
    WAction.park ∉ workerLoop env l i := by
  induction l generalizing i with
  | nil => simp [workerLoop]
  | cons t rest ih =>
    cases hp : env.phase i <;> simp [workerLoop, hp, ih]

lemma measuredTargets_append (acts1 acts2 : List WAction) :
    measuredTargets (acts1 ++ acts2) = measuredTargets acts1 ++ measuredTargets acts2 := by
  simp [measuredTargets]

lemma workerLoop_measured_prefix (env : WorkerEnv) (l : List ℚ) (i : ℕ) :
    ∃ k ≤ l.length, measuredTargets (workerLoop env l i) = l.take k := by
  induction l generalizing i with
  | nil => exact ⟨0, le_refl 0, by simp [workerLoop, measuredTargets]⟩
  | cons t rest ih =>
    cases hp : env.phase i with
    | stopBeforePoint => exact ⟨0, by simp, by simp [workerLoop, hp, measuredTargets]⟩
    | stopDuringWait => exact ⟨0, by simp, by simp [workerLoop, hp, measuredTargets]⟩
    | measured b =>
      obtain ⟨k, hk, hEq⟩ := ih (i + 1)
      exact ⟨k + 1, by simpa using hk,
        by simp [workerLoop, hp, measuredTargets, hEq.symm, List.take_succ_cons]⟩

lemma workerLoop_measured_all (env : WorkerEnv)
    (hns : ∀ j, (env.phase j).stopSeen = false) (l : List ℚ) (i : ℕ) :
    measuredTargets (workerLoop env l i) = l := by
  induction l generalizing i with
  | nil => simp [workerLoop, measuredTargets]
  | cons t rest ih =>
    have hp : env.phase i = .measured false := by
      have := hns i
      cases hpi : env.phase i <;> simp_all [PointPhase.stopSeen]
    have h2 := ih (i + 1)
    simp only [measuredTargets] at h2
    simp [workerLoop, hp, measuredTargets, h2]

/-- C8: over the sorted point list, the worker's measurement bursts form an
initial (hence ascending, no-repeat) segment of the points; all points are
processed when no stop is requested; and the parking setpoint is commanded
iff the stop flag is never raised, i.e. iff the run completes naturally. -/
theorem C8_visit_and_park (env : WorkerEnv) (points : List ℚ) (hval : ValidEnv env) :
    (∃ k ≤ (set_calibration_points points).length,
      measuredTargets (calibration_worker env (set_calibration_points points)) =
        (set_calibration_points points).take k) ∧
    List.Sorted (· ≤ ·)
      (measuredTargets (calibration_worker env (set_calibration_points points))) ∧
    (env.stopAtEnd = false →
      measuredTargets (calibration_worker env (set_calibration_points points)) =
        set_calibration_points points) ∧
    (WAction.park ∈ calibration_worker env (set_calibration_points points) ↔
      env.stopAtEnd = false) := by
  have hsorted : List.Sorted (· ≤ ·) (set_calibration_points points) :=
    List.sorted_insertionSort (· ≤ ·) points
  have htargets : measuredTargets (calibration_worker env (set_calibration_points points)) =
      measuredTargets (workerLoop env (set_calibration_points points) 0) := by
    unfold calibration_worker
    cases he : env.stopAtEnd <;>
      simp [measuredTargets_append, measuredTargets]
  obtain ⟨k, hk, hEq⟩ := workerLoop_measured_prefix env (set_calibration_points points) 0
  refine ⟨⟨k, hk, by rw [htargets, hEq]⟩, ?_, ?_, ?_⟩
  · rw [htargets, hEq]
    exact hsorted.sublist (List.take_sublist k _)
  · intro hend
    have hns : ∀ j, (env.phase j).stopSeen = false := by
      intro j
      by_contra hcon
      rw [Bool.not_eq_false] at hcon
      rw [hval.2 j hcon] at hend
      exact Bool.noConfusion hend
    rw [htargets, workerLoop_measured_all env hns]
  · unfold calibration_worker
    cases he : env.stopAtEnd with
    | true => simp [park_not_in_workerLoop env _ 0]
    | false => simp

/-- C8 witness: with no stop requested, both points are measured in ascending
order and the furnace is parked. -/
theorem C8_witness :
    measuredTargets (calibration_worker noStopEnv (set_calibration_points [100, 50])) =
      [50, 100] ∧
    WAction.park ∈ calibration_worker noStopEnv (set_calibration_points [100, 50]) := by
  have hval : ValidEnv noStopEnv := by
    constructor
    · intro i h
      simp [noStopEnv, PointPhase.stopSeen] at h
    · intro i h
      simp [noStopEnv, PointPhase.stopSeen] at h
  have h := C8_visit_and_park noStopEnv [100, 50] hval
  have hsort : set_calibration_points [100, 50] = [50, 100] := by
    norm_num [set_calibration_points, List.insertionSort, List.orderedInsert]
  refine ⟨?_, ?_⟩
  · rw [← hsort]
    exact h.2.2.1 rfl
  · exact h.2.2.2.2 rfl

/-! ## C6: CRC check value and single-byte corruption -/

lemma crcRound_lt {c : ℕ} (h : c < 65536) : crcRound c < 65536 := by
  unfold crcRound
  split_ifs
  · exact Nat.xor_lt_two_pow (n := 16) (by omega) (by norm_num)
  · omega

lemma crcRound_ge_of_odd {c : ℕ} (h : c < 65536) (hodd : c % 2 = 1) :
    32768 ≤ crcRound c := by
  rw [crcRound, if_pos hodd]
  by_contra hlt
  push_neg at hlt
  have hb : ((c / 2) ^^^ 0xA001).testBit 15 = false :=
    Nat.testBit_eq_false_of_lt (by norm_num at hlt ⊢; omega)
  rw [Nat.testBit_xor, Nat.testBit_eq_false_of_lt (show c / 2 < 2 ^ 15 by omega)] at hb
  simp at hb
  exact absurd hb (by decide)

lemma crcRound_lt_of_even {c : ℕ} (h : c < 65536) (heven : c % 2 = 0) :
    crcRound c < 32768 := by
  rw [crcRound, if_neg (by omega)]
  omega

lemma crcRound_inj {a b : ℕ} (ha : a < 65536) (hb : b < 65536)
    (h : crcRound a = crcRound b) : a = b := by
  by_cases pa : a % 2 = 1 <;> by_cases pb : b % 2 = 1
  · rw [crcRound, if_pos pa, crcRound, if_pos pb] at h
    have := Nat.xor_left_inj.1 h
    omega
  · have h1 := crcRound_ge_of_odd ha pa
    have h2 := crcRound_lt_of_even hb (by omega)
    omega
  · have h1 := crcRound_lt_of_even ha (by omega)
    have h2 := crcRound_ge_of_odd hb pb
    omega
  · rw [crcRound, if_neg pa, crcRound, if_neg pb] at h
    omega

lemma crcRound_iter_lt (n : ℕ) {c : ℕ} (h : c < 65536) : crcRound^[n] c < 65536 := by
  induction n generalizing c with
  | zero => simpa using h
  | succ m ih =>
    rw [Function.iterate_succ_apply]
    exact ih (crcRound_lt h)

lemma crcRound_iter_inj (n : ℕ) {a b : ℕ} (ha : a < 65536) (hb : b < 65536)
    (h : crcRound^[n] a = crcRound^[n] b) : a = b := by
  induction n generalizing a b with
  | zero => simpa using h
  | succ m ih =>
    rw [Function.iterate_succ_apply, Function.iterate_succ_apply] at h
    exact crcRound_inj ha hb (ih (crcRound_lt ha) (crcRound_lt hb) h)

lemma crcByteStep_lt {c b : ℕ} (hc : c < 65536) (hb : b < 256) :
    crcByteStep c b < 65536 := by
  unfold crcByteStep
  exact crcRound_iter_lt 8 (Nat.xor_lt_two_pow (n := 16) hc (by omega))

lemma crcByteStep_inj_state {c c' b : ℕ} (hc : c < 65536) (hc' : c' < 65536) (hb : b < 256)
    (h : crcByteStep c b = crcByteStep c' b) : c = c' := by
  unfold crcByteStep at h
  have hx : c ^^^ b = c' ^^^ b :=
    crcRound_iter_inj 8 (Nat.xor_lt_two_pow (n := 16) hc (by omega))
      (Nat.xor_lt_two_pow (n := 16) hc' (by omega)) h
  exact Nat.xor_left_inj.1 hx

lemma crcByteStep_inj_byte {c b b' : ℕ} (hc : c < 65536) (hb : b < 256) (hb' : b' < 256)
    (h : crcByteStep c b = crcByteStep c b') : b = b' := by
  unfold crcByteStep at h
  have hx : c ^^^ b = c ^^^ b' :=
    crcRound_iter_inj 8 (Nat.xor_lt_two_pow (n := 16) hc (by omega))
      (Nat.xor_lt_two_pow (n := 16) hc (by omega)) h
  exact Nat.xor_right_inj.1 hx

lemma foldl_crc_lt (l : List ℕ) {s : ℕ} (hs : s < 65536) (hl : ∀ x ∈ l, x < 256) :
    l.foldl crcByteStep s < 65536 := by
  induction l generalizing s with
  | nil => simpa using hs
  | cons a t ih =>
    rw [List.foldl_cons]
    exact ih (crcByteStep_lt hs (hl a (by simp))) (fun x hx => hl x (by simp [hx]))

lemma foldl_crc_inj (l : List ℕ) {s t : ℕ} (hs : s < 65536) (ht : t < 65536)
    (hl : ∀ x ∈ l, x < 256) (h : l.foldl crcByteStep s = l.foldl crcByteStep t) : s = t := by
  induction l generalizing s t with
  | nil => simpa using h
  | cons a u ih =>
    rw [List.foldl_cons, List.foldl_cons] at h
    have ha : a < 256 := hl a (by simp)
    have := ih (crcByteStep_lt hs ha) (crcByteStep_lt ht ha)
      (fun x hx => hl x (by simp [hx])) h
    exact crcByteStep_inj_state hs ht ha this

lemma crc_change (p : List ℕ) (b b' : ℕ) (s : List ℕ)
    (hp : ∀ x ∈ p, x < 256) (hs : ∀ x ∈ s, x < 256)
    (hb : b < 256) (hb' : b' < 256) (hne : b ≠ b') :
    calculate_crc (p ++ b :: s) ≠ calculate_crc (p ++ b' :: s) := by
  intro h
  unfold calculate_crc at h
  rw [List.foldl_append, List.foldl_append, List.foldl_cons, List.foldl_cons] at h
  have hm : p.foldl crcByteStep 0xFFFF < 65536 := foldl_crc_lt p (by norm_num) hp
  have hstep := foldl_crc_inj s (crcByteStep_lt hm hb) (crcByteStep_lt hm hb') hs h
  exact hne (crcByteStep_inj_byte hm hb hb' hstep)

lemma take_set_of_le (l : List ℕ) (i a : ℕ) :
    ∀ n ≤ i, (l.set i a).take n = l.take n := by
  induction l generalizing i with
  | nil => simp
  | cons x xs ih =>
    intro n hn
    cases n with
    | zero => simp
    | succ m =>
      cases i with
      | zero => omega
      | succ j =>
        simp only [List.set_cons_succ, List.take_succ_cons]
        rw [ih j m (by omega)]

lemma take_set_of_lt (l : List ℕ) (i a : ℕ) :
    ∀ n, i < n → (l.set i a).take n = (l.take n).set i a := by
  induction l generalizing i with
  | nil => simp
  | cons x xs ih =>
    intro n hn
    cases i with
    | zero =>
      cases n with
      | zero => omega
      | succ m => simp
    | succ j =>
      cases n with
      | zero => omega
      | succ m =>
        simp only [List.set_cons_succ, List.take_succ_cons]
        rw [ih j m (by omega)]

set_option maxRecDepth 8000 in
/-- C6: the CRC-16/Modbus implementation reproduces the reference check value
`0x4B37` on the standard input `"123456789"`, and corrupting any single byte
of a 9-byte reply that parses successfully — data, function, count, or CRC
trailer byte — makes `_parse_float_response` reject the reply. -/
theorem C6_crc_check_and_corruption :
    calculate_crc crcCheckInput = 0x4B37 ∧
    (∀ r : List ℕ, r.length = 9 → (∀ x ∈ r, x < 256) →
      (parse_float_response r).isSome = true →
      ∀ i, i < 9 → ∀ b', b' < 256 → b' ≠ r.getD i 0 →
        parse_float_response (r.set i b') = none) := by
  constructor
  · decide
  · intro r h9 hbytes hsome i hi b' hb' hneq
    have hvalid := valid_of_parse_isSome r hsome
    rw [responseInvalid] at hvalid
    push_neg at hvalid
    obtain ⟨hlen, hslave, hexc, hcount, hcrc⟩ := hvalid
    apply parse_none_of_invalid
    rw [responseInvalid]
    by_cases hi7 : 7 ≤ i
    · right; right; right; right
      rw [take_set_of_le r i b' 7 hi7, ← hcrc]
      interval_cases i
      · have e7 : (r.set 7 b').getD 7 0 = b' := by
          rw [List.getD_eq_getElem?_getD, List.getElem?_set_eq_of_lt b' (by omega)]
          rfl
        have e8 : (r.set 7 b').getD 8 0 = r.getD 8 0 := by
          rw [List.getD_eq_getElem?_getD, List.getElem?_set_ne (by omega),
            ← List.getD_eq_getElem?_getD]
        rw [e7, e8]
        unfold crc_le
        intro hcon
        exact hneq (by omega)
      · have e7 : (r.set 8 b').getD 7 0 = r.getD 7 0 := by
          rw [List.getD_eq_getElem?_getD, List.getElem?_set_ne (by omega),
            ← List.getD_eq_getElem?_getD]
        have e8 : (r.set 8 b').getD 8 0 = b' := by
          rw [List.getD_eq_getElem?_getD, List.getElem?_set_eq_of_lt b' (by omega)]
          rfl
        rw [e7, e8]
        unfold crc_le
        intro hcon
        exact hneq (by omega)
    · push_neg at hi7
      by_cases hs0 : (r.set i b').getD 0 0 ≠ FURNACE_SLAVE_ID
      · exact Or.inr (Or.inl hs0)
      by_cases he1 : (r.set i b').getD 1 0 = MODBUS_READ_HOLDING ||| 0x80
      · exact Or.inr (Or.inr (Or.inl he1))
      by_cases hc2 : (r.set i b').getD 2 0 ≠ 4
      · exact Or.inr (Or.inr (Or.inr (Or.inl hc2)))
      right; right; right; right
      have e7 : (r.set i b').getD 7 0 = r.getD 7 0 := by
        rw [List.getD_eq_getElem?_getD, List.getElem?_set_ne (by omega),
          ← List.getD_eq_getElem?_getD]
      have e8 : (r.set i b').getD 8 0 = r.getD 8 0 := by
        rw [List.getD_eq_getElem?_getD, List.getElem?_set_ne (by omega),
          ← List.getD_eq_getElem?_getD]
      rw [e7, e8, hcrc, take_set_of_lt r i b' 7 hi7]
      have hil : i < (r.take 7).length := by
        rw [List.length_take, h9]
        omega
      have hdec2 : r.take 7 = (r.take 7).take i ++ (r.take 7)[i] :: (r.take 7).drop (i + 1) := by
        conv_lhs => rw [← List.take_append_drop i (r.take 7), List.drop_eq_getElem_cons hil]
      have hdec : (r.take 7).set i b' =
          (r.take 7).take i ++ b' :: (r.take 7).drop (i + 1) :=
        List.set_eq_take_cons_drop b' hil
      have hmem_take : ∀ x ∈ (r.take 7).take i, x < 256 := fun x hx =>
        hbytes x (List.take_subset _ _ (List.take_subset _ _ hx))
      have hmem_drop : ∀ x ∈ (r.take 7).drop (i + 1), x < 256 := fun x hx =>
        hbytes x (List.take_subset _ _ (List.drop_subset _ _ hx))
      have hli : (r.take 7)[i] < 256 :=
        hbytes _ (List.take_subset _ _ (List.getElem_mem hil))
      have hgr : (r.take 7)[i] = r.getD i 0 := by
        rw [List.getD_eq_getElem r 0 (by omega)]
        exact List.getElem_take r
      have hbneq : (r.take 7)[i] ≠ b' := by
        intro hcon
        exact hneq (by rw [← hcon, hgr])
      intro hcon
      rw [hdec] at hcon
      conv_lhs at hcon => rw [hdec2]
      exact crc_change ((r.take 7).take i) (r.take 7)[i] b' ((r.take 7).drop (i + 1))
        hmem_take hmem_drop hli hb' hbneq hcon

set_option maxRecDepth 8000 in
/-- C6 witness: the check value evaluated, and a concrete corruption of the
valid reply `goodReply` (byte 4 changed from 200 to 201) being rejected. -/
theorem C6_witness :
    calculate_crc crcCheckInput = 0x4B37 ∧
    parse_float_response (goodReply.set 4 201) = none := by
  refine ⟨C6_crc_check_and_corruption.1, ?_⟩
  exact C6_crc_check_and_corruption.2 goodReply (by decide) (by decide) (by decide)
    4 (by decide) 201 (by decide) (by decide)

end TempCal
